import Mathlib

/-!
Verification development for the BlockCore `DynamicDB` chunked dynamic
key-value store (`src/_Core/Systems/DataCollection/DynamicDB.ts`).

The store binds to an Owner (World, Player or Entity) and delegates all
physical storage to the host's dynamic-property backend.  Values are
JSON-serialized structured data.  We embed:

  * `JValue`   — JSON-representable structured values (the `DynamicDBData`
                 payloads);
  * `SlotText` — the transport text held in one physical slot: either the
                 serialization of a value or text that fails to decode;
  * `Backend`  — the host property backend (flat string-keyed slot store
                 with a per-slot byte limit);
  * `DynamicDB`— the store instance, holding an optional backend reference
                 (the constructor leaves it unassigned on a bad argument);
  * the public operations `get`, `set`, `push`, `delete`, `reset`,
    `hasKey`, `keys`, `bytes`, `entries`, `values`, `find`, `forEach` and
    the private helper `dataMerge`, each translated from the source.

A JavaScript `throw` escaping an operation is modelled as `Except.error`;
a normal return is `Except.ok`.  Operations whose every exit is a normal
return (such as `set`, whose `try`/`catch` swallows all errors) are typed
as plain functions.  Logger output is a fire-and-forget external side
effect and is not part of the observable state modelled here.
-/

namespace BlockCore

/-- JSON-representable structured data (`DynamicDBData` in the source). -/
inductive JValue where
  | null : JValue
  | bool : Bool → JValue
  | num : Int → JValue
  | str : String → JValue
  | arr : List JValue → JValue
  | obj : List (String × JValue) → JValue


/-- Total projection of a string value; only used under an `isString` guard. -/
def JValue.asStr : JValue → String
  | .str s => s
  | _ => ""

/-- One physical slot's stored text.  `json v` is the output of
`JSON.stringify` on `v`; `corrupt s` is text (written by other code sharing
the Owner) on which `JSON.parse` raises a `SyntaxError`. -/
inductive SlotText where
  | json : JValue → SlotText
  | corrupt : String → SlotText


/-- Modelled from the spec: the serialization codec (§4.2) — `JSON.stringify`,
a host builtin not part of the shown source.  On `JValue` (exactly the
JSON-representable values, no cycles or unsupported members) encoding is
total. -/
def jsonStringify (v : JValue) : SlotText := .json v

/-- Modelled from the spec: the serialization codec (§4.2) — `JSON.parse`,
a host builtin not part of the shown source.  Decoding the serialization of
`v` yields `v`; decoding corrupt text raises. -/
def jsonParse : SlotText → Except String JValue
  | .json v => .ok v
  | .corrupt _ => .error "SyntaxError: unexpected token in JSON"

mutual
/-- Modelled from the spec: length in bytes of the serialized (JSON text)
form of a value, used only to compare against the backend's per-slot byte
limit (§1, §31; the exact limit constants are left open by §9). -/
def jsonLength : JValue → Nat
  | .null => 4
  | .bool true => 4
  | .bool false => 5
  | .num n => (toString n).length
  | .str s => s.length + 2
  | .arr vs => 2 + jsonLengthArr vs
  | .obj fs => 2 + jsonLengthObj fs

/-- Serialized length of an array's elements, comma-separated. -/
def jsonLengthArr : List JValue → Nat
  | [] => 0
  | [v] => jsonLength v
  | v :: rest => jsonLength v + 1 + jsonLengthArr rest

/-- Serialized length of an object's fields, comma-separated. -/
def jsonLengthObj : List (String × JValue) → Nat
  | [] => 0
  | [(k, v)] => k.length + 3 + jsonLength v
  | (k, v) :: rest => k.length + 3 + jsonLength v + 1 + jsonLengthObj rest
end

/-- Byte length of one slot's stored text. -/
def SlotText.length : SlotText → Nat
  | .json v => jsonLength v
  | .corrupt s => s.length

/-- Modelled from the spec: the Host Property Backend (§6) — the flat
string-keyed slot store owned by one World/Player/Entity, with a per-slot
byte limit (`maxSlot`; the concrete constant is host-defined, §9).
`props` is the ordered slot list (host enumeration order). -/
structure Backend where
  props : List (String × SlotText)
  maxSlot : Nat


/-- Update an association list in place: the first binding of `k` keeps its
position and gets the new text; a fresh key is appended at the end. -/
def setAssoc : List (String × SlotText) → String → SlotText → List (String × SlotText)
  | [], k, t => [(k, t)]
  | (k', t') :: rest, k, t =>
      if k' == k then (k', t) :: rest else (k', t') :: setAssoc rest k t

/-- Modelled from the spec: backend `getProperty` (§6). -/
def Backend.getDynamicProperty (b : Backend) (k : String) : Option SlotText :=
  (b.props.find? (fun p => p.1 == k)).map (·.2)

/-- Modelled from the spec: backend `setProperty` (§6).  Passing no text
clears the key; storing text beyond the per-slot byte limit raises. -/
def Backend.setDynamicProperty (b : Backend) (k : String) :
    Option SlotText → Except String Backend
  | none => .ok { b with props := b.props.filter (fun p => ¬(p.1 == k)) }
  | some t =>
      if t.length ≤ b.maxSlot then .ok { b with props := setAssoc b.props k t }
      else .error "Error: dynamic property value exceeds slot byte limit"

/-- Modelled from the spec: backend `getPropertyIds` (§6). -/
def Backend.getDynamicPropertyIds (b : Backend) : List String :=
  b.props.map (·.1)

/-- Modelled from the spec: backend `getPropertyTotalByteCount` (§6). -/
def Backend.getDynamicPropertyTotalByteCount (b : Backend) : Nat :=
  (b.props.map (fun p => p.1.length + p.2.length)).sum

/-- Modelled from the spec: backend `clearAllProperties` (§6). -/
def Backend.clearDynamicProperties (b : Backend) : Backend :=
  { b with props := [] }

namespace Validator

/-- Modelled from the spec: `Validator.isString` (§2, a leaf predicate whose
source is not shown). -/
def isString : JValue → Bool
  | .str _ => true
  | _ => false

/-- Modelled from the spec: `Validator.isObject` (§2); `set`/`push` demand a
structured object value. -/
def isObject : JValue → Bool
  | .obj _ => true
  | _ => false

/-- Modelled from the spec: `Validator.isUndefined` (§2). -/
def isUndefined : Option JValue → Bool
  | none => true
  | some _ => false

end Validator

/-- A `DynamicDB` instance.  `PROPERTIES` is the backend reference; the
constructor leaves it unassigned (`none`) when its argument is not a
World, Player or Entity instance. -/
structure DynamicDB where
  PROPERTIES : Option Backend


/-- The constructor argument: either a genuine Owner (carrying its backend)
or a value that is not an instance of World, Player or Entity. -/
inductive CtorArg where
  | owner : Backend → CtorArg
  | invalid : CtorArg

/-- `constructor(type)`: on a bad argument it logs and returns, leaving
`PROPERTIES` unassigned; otherwise it binds the Owner's backend. -/
def DynamicDB.make : CtorArg → DynamicDB
  | .owner b => ⟨some b⟩
  | .invalid => ⟨none⟩

/-- Reading `this.PROPERTIES` and calling a method on it: a `TypeError` is
raised when the constructor left it unassigned. -/
def DynamicDB.deref (db : DynamicDB) : Except String Backend :=
  match db.PROPERTIES with
  | some b => .ok b
  | none => .error "TypeError: cannot read properties of undefined"

/-- `get keys()`: the backend's slot-key enumeration. -/
def DynamicDB.keys (db : DynamicDB) : Except String (List String) := do
  return (← db.deref).getDynamicPropertyIds

/-- `get bytes()`: the backend's live total byte count. -/
def DynamicDB.bytes (db : DynamicDB) : Except String Nat := do
  return (← db.deref).getDynamicPropertyTotalByteCount

/-- `hasKey(key)`: `this.keys.includes(key)`. -/
def DynamicDB.hasKey (db : DynamicDB) (key : String) : Except String Bool := do
  return (← db.keys).contains key

/-- `get(key)`: returns `undefined` (logging) on a non-string key or a
missing key; otherwise parses the stored text.  The `JSON.parse` call is
not guarded by any `try`, so a parse failure propagates to the caller. -/
def DynamicDB.get (db : DynamicDB) (key : JValue) : Except String (Option JValue) :=
  if ¬Validator.isString key then .ok none
  else do
    let hk ← db.hasKey key.asStr
    if ¬hk then return none
    else
      match (← db.deref).getDynamicProperty key.asStr with
      | none => .error "SyntaxError: JSON.parse called on undefined"
      | some dynamic_props => do
          let v ← jsonParse dynamic_props
          return some v

/-- The body of `set`'s `try` block: serialize and write one slot. -/
def DynamicDB.setTry (db : DynamicDB) (key data : JValue) : Except String DynamicDB := do
  let json_data := jsonStringify data
  let b ← db.deref
  let b' ← b.setDynamicProperty key.asStr (some json_data)
  return { db with PROPERTIES := some b' }

/-- `set(key, data)`: validates the arguments, then runs the `try` block;
the `catch` turns every raised error into a logged `false` return, so `set`
never throws. -/
def DynamicDB.set (db : DynamicDB) (key data : JValue) : Bool × DynamicDB :=
  if ¬Validator.isString key then (false, db)
  else if ¬Validator.isObject data then (false, db)
  else
    match db.setTry key data with
    | .ok db' => (true, db')
    | .error _ => (false, db)

/-- Spreading a value into an object literal, JavaScript semantics:
`undefined`, `null`, booleans and numbers contribute nothing; strings and
arrays contribute index properties; objects contribute their fields. -/
def spreadEntries : Option JValue → List (String × JValue)
  | none => []
  | some .null => []
  | some (.bool _) => []
  | some (.num _) => []
  | some (.str s) => s.toList.enum.map (fun p => (toString p.1, .str (String.singleton p.2)))
  | some (.arr vs) => vs.enum.map (fun p => (toString p.1, p.2))
  | some (.obj fs) => fs

/-- Assigning one property in an object literal under construction: a
repeated key overwrites the value at its first position, a fresh key is
appended. -/
def objInsert : List (String × JValue) → String → JValue → List (String × JValue)
  | [], k, v => [(k, v)]
  | (k', v') :: rest, k, v =>
      if k' == k then (k', v) :: rest else (k', v') :: objInsert rest k v

/-- `dataMerge(existing, newData)`: the object literal
`{ ...existing, ...newData }` — a shallow merge where `newData`'s
top-level keys win and nested values are taken wholesale. -/
def DynamicDB.dataMerge (existing : Option JValue) (newData : JValue) : JValue :=
  .obj ((spreadEntries existing ++ spreadEntries (some newData)).foldl
    (fun acc p => objInsert acc p.1 p.2) [])

/-- `push(key, data)`: validates, reads the existing value (whose parse
errors propagate), shallow-merges and stores via `set`. -/
def DynamicDB.push (db : DynamicDB) (key data : JValue) :
    Except String (Bool × DynamicDB) :=
  if ¬Validator.isString key then .ok (false, db)
  else if ¬Validator.isObject data then .ok (false, db)
  else do
    let existing ← db.get key
    let merged := DynamicDB.dataMerge existing data
    return db.set key merged

/-- `delete(key)`: validates, requires the key to exist, then clears the
slot by calling the backend setter with no value. -/
def DynamicDB.delete (db : DynamicDB) (key : JValue) :
    Except String (Bool × DynamicDB) :=
  if ¬Validator.isString key then .ok (false, db)
  else do
    let hk ← db.hasKey key.asStr
    if ¬hk then return (false, db)
    else do
      let b ← db.deref
      let b' ← b.setDynamicProperty key.asStr none
      return (true, { db with PROPERTIES := some b' })

/-- `reset()`: clears every slot of the Owner. -/
def DynamicDB.reset (db : DynamicDB) : Except String DynamicDB := do
  return { db with PROPERTIES := some (← db.deref).clearDynamicProperties }

/-- The loop body of the `entries()` generator over the remaining keys: each
key's value is read with `get` (whose parse errors propagate, aborting the
iteration), and keys whose value is `undefined` are skipped. -/
def DynamicDB.entriesGo (db : DynamicDB) : List String → Except String (List (String × JValue))
  | [] => .ok []
  | key :: rest => do
      let value ← db.get (.str key)
      let tail ← db.entriesGo rest
      if Validator.isUndefined value then return tail
      else return (key, value.getD .null) :: tail

/-- `entries()` consumed to completion: the pairs collected by
`[...this.entries()]`. -/
def DynamicDB.entries (db : DynamicDB) : Except String (List (String × JValue)) := do
  db.entriesGo (← db.keys)

/-- `values()` consumed to completion: materializes `entries()` and yields
the value of each pair. -/
def DynamicDB.values (db : DynamicDB) : Except String (List JValue) := do
  let entries_arr ← db.entries
  return entries_arr.map (·.2)

/-- The loop of `find` over the materialized entries array.  The callback
may mutate the store, so it threads the instance; next to the result we
record the pairs actually passed to the callback. -/
def DynamicDB.findGo (f : JValue → String → DynamicDB → Bool × DynamicDB) :
    List (String × JValue) → DynamicDB → (Option JValue × DynamicDB) × List (String × JValue)
  | [], db => ((none, db), [])
  | (key, value) :: rest, db =>
      let (hit, db') := f value key db
      if hit then ((some value, db'), [(key, value)])
      else
        let (res, visited) := DynamicDB.findGo f rest db'
        (res, (key, value) :: visited)

/-- `find(callbackfn)`: materializes `[...this.entries()]`, then scans it
for the first entry the callback accepts. -/
def DynamicDB.find (db : DynamicDB) (f : JValue → String → DynamicDB → Bool × DynamicDB) :
    Except String ((Option JValue × DynamicDB) × List (String × JValue)) := do
  let entries_arr ← db.entries
  return DynamicDB.findGo f entries_arr db

/-- The loop of `forEach` over the materialized entries array, recording the
pairs passed to the (store-mutating) callback. -/
def DynamicDB.forEachGo (f : JValue → String → DynamicDB → DynamicDB) :
    List (String × JValue) → DynamicDB → DynamicDB × List (String × JValue)
  | [], db => (db, [])
  | (key, value) :: rest, db =>
      let db' := f value key db
      let (dbf, visited) := DynamicDB.forEachGo f rest db'
      (dbf, (key, value) :: visited)

/-- `forEach(callbackfn)`: materializes `[...this.entries()]`, then invokes
the callback on every pair. -/
def DynamicDB.forEach (db : DynamicDB) (f : JValue → String → DynamicDB → DynamicDB) :
    Except String (DynamicDB × List (String × JValue)) := do
  let entries_arr ← db.entries
  return DynamicDB.forEachGo f entries_arr db

/-! ## Association-list helper lemmas -/

theorem setAssoc_find_self (l : List (String × SlotText)) (k : String) (t : SlotText) :
    (setAssoc l k t).find? (fun p => p.1 == k) = some (k, t) := by
  induction l with
  | nil => simp [setAssoc]
  | cons p rest ih =>
    obtain ⟨k', t'⟩ := p
    by_cases h : k' = k
    · subst h
      simp [setAssoc]
    · have hb : (k' == k) = false := by simp [h]
      simp [setAssoc, hb, ih]

theorem mem_map_fst_setAssoc (l : List (String × SlotText)) (k : String) (t : SlotText) :
    k ∈ (setAssoc l k t).map (·.1) := by
  have hm : (k, t) ∈ setAssoc l k t :=
    List.mem_of_find?_eq_some (setAssoc_find_self l k t)
  exact List.mem_map.mpr ⟨(k, t), hm, rfl⟩

theorem not_mem_map_fst_filter_ne (l : List (String × SlotText)) (s : String) :
    s ∉ (l.filter (fun p => ¬(p.1 == s))).map (·.1) := by
  intro hmem
  rcases List.mem_map.mp hmem with ⟨p, hp, hfst⟩
  have := List.of_mem_filter hp
  simp [hfst] at this

theorem mem_map_fst_of_find?_eq_some (l : List (String × SlotText)) (s : String)
    (t : String × SlotText) (h : l.find? (fun p => p.1 == s) = some t) :
    s ∈ l.map (·.1) := by
  have hp := List.find?_some h
  have hmem := List.mem_of_find?_eq_some h
  have heq : t.1 = s := by simpa using hp
  exact List.mem_map.mpr ⟨t, hmem, heq⟩

/-! ## Characterization of `delete` on an instance with a bound backend -/

theorem delete_str_char (b : Backend) (s : String) :
    DynamicDB.delete ⟨some b⟩ (.str s) =
      if s ∈ b.getDynamicPropertyIds then
        .ok (true, ⟨some { b with props := b.props.filter (fun p => ¬(p.1 == s)) }⟩)
      else .ok (false, ⟨some b⟩) := by
  by_cases hmem : s ∈ b.getDynamicPropertyIds <;>
    simp [DynamicDB.delete, Validator.isString, DynamicDB.hasKey, DynamicDB.keys,
          DynamicDB.deref, JValue.asStr, Backend.setDynamicProperty, hmem,
          Bind.bind, Except.bind, pure, Except.pure]

theorem delete_not_str (db : DynamicDB) (key : JValue)
    (h : Validator.isString key = false) :
    DynamicDB.delete db key = .ok (false, db) := by
  simp [DynamicDB.delete, h]

/-- C5: `delete` on a string key with no entry returns false and leaves the
backend state unchanged, and whatever one `delete` call did, running the
same `delete` again returns false and leaves the state exactly where the
first call left it (so two calls in a row have the same observable effect
on the store as one). -/
theorem C5_delete_absent_false_and_idempotent (b : Backend) (key : JValue) :
    (∀ s : String, key = .str s → s ∉ b.getDynamicPropertyIds →
        DynamicDB.delete ⟨some b⟩ key = .ok (false, ⟨some b⟩)) ∧
    (∀ (r : Bool) (db' : DynamicDB), DynamicDB.delete ⟨some b⟩ key = .ok (r, db') →
        DynamicDB.delete db' key = .ok (false, db')) := by
  constructor
  · intro s hks hc
    subst hks
    simp [delete_str_char, hc]
  · intro r db' h
    cases hstr : Validator.isString key
    · rw [delete_not_str _ _ hstr] at h
      obtain ⟨rfl, rfl⟩ : false = r ∧ (⟨some b⟩ : DynamicDB) = db' := by
        constructor <;> cases h <;> rfl
      exact delete_not_str _ _ hstr
    · obtain ⟨s, rfl⟩ : ∃ s, key = .str s := by
        cases key <;> simp [Validator.isString] at hstr ⊢
      rw [delete_str_char] at h
      by_cases hmem : s ∈ b.getDynamicPropertyIds
      · rw [if_pos hmem] at h
        obtain ⟨rfl, rfl⟩ : true = r ∧
            (⟨some { b with props := b.props.filter (fun p => ¬(p.1 == s)) }⟩ : DynamicDB) = db' := by
          constructor <;> cases h <;> rfl
        rw [delete_str_char, if_neg]
        exact not_mem_map_fst_filter_ne b.props s
      · rw [if_neg hmem] at h
        obtain ⟨rfl, rfl⟩ : false = r ∧ (⟨some b⟩ : DynamicDB) = db' := by
          constructor <;> cases h <;> rfl
        rw [delete_str_char, if_neg hmem]

/-- Witness for C5 at concrete inputs: deleting an absent key `"zz"` returns
false and changes nothing; after deleting the present key `"a"`, a second
`delete "a"` returns false and leaves the emptied store untouched. -/
theorem C5_witness :
    DynamicDB.delete ⟨some ⟨[("a", .json .null)], 50⟩⟩ (.str "zz")
      = .ok (false, ⟨some ⟨[("a", .json .null)], 50⟩⟩) ∧
    DynamicDB.delete ⟨some ⟨[], 50⟩⟩ (.str "a") = .ok (false, ⟨some ⟨[], 50⟩⟩) :=
  ⟨(C5_delete_absent_false_and_idempotent ⟨[("a", .json .null)], 50⟩ (.str "zz")).1 "zz" rfl (by decide),
   (C5_delete_absent_false_and_idempotent ⟨[("a", .json .null)], 50⟩ (.str "a")).2 true ⟨some ⟨[], 50⟩⟩ rfl⟩

/-- C6: `set` returns false without mutating any backend state whenever the
key argument is not a string or the value argument is not a structured
object. -/
theorem C6_set_validation_rejection (db : DynamicDB) (key data : JValue)
    (h : Validator.isString key = false ∨ Validator.isObject data = false) :
    DynamicDB.set db key data = (false, db) := by
  rcases h with h | h
  · simp [DynamicDB.set, h]
  · cases hs : Validator.isString key
    · simp [DynamicDB.set, hs]
    · simp [DynamicDB.set, hs, h]

/-- Witness for C6 at the claim's own inputs: `set(123, {})` and
`set("k", "not an object")` both return false and leave the store as it
was. -/
theorem C6_witness :
    DynamicDB.set ⟨some ⟨[], 100⟩⟩ (.num 123) (.obj []) = (false, ⟨some ⟨[], 100⟩⟩) ∧
    DynamicDB.set ⟨some ⟨[], 100⟩⟩ (.str "k") (.str "not an object")
      = (false, ⟨some ⟨[], 100⟩⟩) :=
  ⟨C6_set_validation_rejection _ _ _ (Or.inl rfl),
   C6_set_validation_rejection _ _ _ (Or.inr rfl)⟩

/-- C8: `bytes` is computed from the backend's live total-byte count on
every read (it is the backend query, nothing cached), and immediately after
`reset()` — which clears every slot of the Owner — `bytes` reports 0. -/
theorem C8_bytes_live_and_zero_after_reset (b : Backend) :
    DynamicDB.bytes ⟨some b⟩ = .ok b.getDynamicPropertyTotalByteCount ∧
    DynamicDB.reset ⟨some b⟩ = .ok ⟨some b.clearDynamicProperties⟩ ∧
    DynamicDB.bytes ⟨some b.clearDynamicProperties⟩ = .ok 0 :=
  ⟨rfl, rfl, rfl⟩


/-! ## Characterization of `get` and `set` on an instance with a bound backend -/

theorem get_not_str (db : DynamicDB) (key : JValue)
    (h : Validator.isString key = false) : db.get key = .ok none := by
  simp [DynamicDB.get, h]

theorem get_str_absent (b : Backend) (s : String)
    (h : s ∉ b.getDynamicPropertyIds) :
    DynamicDB.get ⟨some b⟩ (.str s) = .ok none := by
  simp [DynamicDB.get, Validator.isString, DynamicDB.hasKey, DynamicDB.keys,
        DynamicDB.deref, JValue.asStr, h, Bind.bind, Except.bind, pure, Except.pure]

theorem get_str_found (b : Backend) (s : String) (t : SlotText)
    (h : b.getDynamicProperty s = some t) :
    DynamicDB.get ⟨some b⟩ (.str s) = (jsonParse t).bind (fun v => .ok (some v)) := by
  obtain ⟨p, hp, hpt⟩ : ∃ p, b.props.find? (fun q => q.1 == s) = some p ∧ p.2 = t := by
    unfold Backend.getDynamicProperty at h
    cases hfind : b.props.find? (fun q => q.1 == s) with
    | none => rw [hfind] at h; cases h
    | some p => rw [hfind] at h; exact ⟨p, rfl, by cases h; rfl⟩
  have hmem : s ∈ b.getDynamicPropertyIds := mem_map_fst_of_find?_eq_some _ _ _ hp
  simp [DynamicDB.get, Validator.isString, DynamicDB.hasKey, DynamicDB.keys,
        DynamicDB.deref, JValue.asStr, hmem, Backend.getDynamicProperty, hp, hpt,
        Bind.bind, Except.bind, pure, Except.pure]

theorem set_success_char (b : Backend) (s : String) (v : JValue)
    (hobj : Validator.isObject v = true) (hle : jsonLength v ≤ b.maxSlot) :
    DynamicDB.set ⟨some b⟩ (.str s) v
      = (true, ⟨some { b with props := setAssoc b.props s (.json v) }⟩) := by
  simp [DynamicDB.set, Validator.isString, hobj, DynamicDB.setTry, DynamicDB.deref,
        JValue.asStr, jsonStringify, Backend.setDynamicProperty, SlotText.length,
        hle, Bind.bind, Except.bind, pure, Except.pure]

theorem set_overflow_char (b : Backend) (s : String) (v : JValue)
    (hgt : ¬jsonLength v ≤ b.maxSlot) :
    DynamicDB.set ⟨some b⟩ (.str s) v = (false, ⟨some b⟩) := by
  cases hobj : Validator.isObject v
  · simp [DynamicDB.set, Validator.isString, hobj]
  · simp [DynamicDB.set, Validator.isString, hobj, DynamicDB.setTry, DynamicDB.deref,
          JValue.asStr, jsonStringify, Backend.setDynamicProperty, SlotText.length,
          hgt, Bind.bind, Except.bind, pure, Except.pure]

theorem set_true_inv (b : Backend) (key v : JValue)
    (h : (DynamicDB.set ⟨some b⟩ key v).1 = true) :
    ∃ s, key = .str s ∧ Validator.isObject v = true ∧ jsonLength v ≤ b.maxSlot ∧
      (DynamicDB.set ⟨some b⟩ key v).2
        = ⟨some { b with props := setAssoc b.props s (.json v) }⟩ := by
  obtain ⟨s, rfl⟩ : ∃ s, key = .str s := by
    cases hstr : Validator.isString key
    · rw [show DynamicDB.set ⟨some b⟩ key v = (false, ⟨some b⟩) by
        simp [DynamicDB.set, hstr]] at h
      cases h
    · cases key <;> simp [Validator.isString] at hstr ⊢
  cases hobj : Validator.isObject v
  · rw [show DynamicDB.set ⟨some b⟩ (.str s) v = (false, ⟨some b⟩) by
      simp [DynamicDB.set, Validator.isString, hobj]] at h
    cases h
  · by_cases hle : jsonLength v ≤ b.maxSlot
    · exact ⟨s, rfl, rfl, hle, by rw [set_success_char b s v hobj hle]⟩
    · rw [set_overflow_char b s v hle] at h
      cases h

/-- C1 counterexample: with the slot for key `"k"` holding corrupt stored
text, `get("k")` propagates the `JSON.parse` exception across the public
boundary instead of returning absent. -/
theorem C1_counterexample :
    DynamicDB.get ⟨some ⟨[("k", .corrupt "\x7b")], 100⟩⟩ (.str "k")
      = .error "SyntaxError: unexpected token in JSON" := rfl

/-- C1 (amended): `get` returns absent (with a logged diagnostic) when the
key is not a string or when no slot exists for it, but when the stored text
for the key fails to deserialize the `JSON.parse` exception escapes `get`
uncaught — that failure case throws across the public boundary rather than
returning absent. -/
theorem C1_get_failure_modes (db : DynamicDB) (b : Backend) (key : JValue) (s c : String) :
    (Validator.isString key = false → db.get key = .ok none) ∧
    (s ∉ b.getDynamicPropertyIds → DynamicDB.get ⟨some b⟩ (.str s) = .ok none) ∧
    (b.getDynamicProperty s = some (.corrupt c) →
      DynamicDB.get ⟨some b⟩ (.str s) = .error "SyntaxError: unexpected token in JSON") := by
  refine ⟨fun h => get_not_str db key h, fun h => get_str_absent b s h, fun h => ?_⟩
  rw [get_str_found b s _ h]
  rfl

/-- Witness for C1 (amended) at concrete inputs: a numeric key and a missing
key give absent, a corrupt slot makes `get` raise. -/
theorem C1_witness :
    DynamicDB.get ⟨some ⟨[("k", .corrupt "x")], 9⟩⟩ (.num 5) = .ok none ∧
    DynamicDB.get ⟨some ⟨[("k", .corrupt "x")], 9⟩⟩ (.str "zz") = .ok none ∧
    DynamicDB.get ⟨some ⟨[("k", .corrupt "x")], 9⟩⟩ (.str "k")
      = .error "SyntaxError: unexpected token in JSON" :=
  ⟨(C1_get_failure_modes ⟨some ⟨[("k", .corrupt "x")], 9⟩⟩ ⟨[("k", .corrupt "x")], 9⟩
      (.num 5) "zz" "x").1 rfl,
   (C1_get_failure_modes ⟨some ⟨[("k", .corrupt "x")], 9⟩⟩ ⟨[("k", .corrupt "x")], 9⟩
      (.num 5) "zz" "x").2.1 (by decide),
   (C1_get_failure_modes ⟨some ⟨[("k", .corrupt "x")], 9⟩⟩ ⟨[("k", .corrupt "x")], 9⟩
      (.num 5) "k" "x").2.2 rfl⟩

/-- C3: whenever `set(k, v)` returns true, an immediate `get(k)` on the
resulting store returns a value structurally (deeply) equal to `v`. -/
theorem C3_set_get_roundtrip (b : Backend) (key v : JValue)
    (h : (DynamicDB.set ⟨some b⟩ key v).1 = true) :
    ((DynamicDB.set ⟨some b⟩ key v).2).get key = .ok (some v) := by
  obtain ⟨s, rfl, hobj, hle, h2⟩ := set_true_inv b key v h
  rw [h2]
  have hfound :
      Backend.getDynamicProperty { b with props := setAssoc b.props s (.json v) } s
        = some (.json v) := by
    simp [Backend.getDynamicProperty, setAssoc_find_self]
  rw [get_str_found _ _ _ hfound]
  rfl

/-- Witness for C3: storing `{"a": 1}` under `"k"` in an empty store
succeeds and reads back deeply equal. -/
theorem C3_witness :
    (DynamicDB.set ⟨some ⟨[], 100⟩⟩ (.str "k") (.obj [("a", .num 1)])).1 = true ∧
    ((DynamicDB.set ⟨some ⟨[], 100⟩⟩ (.str "k") (.obj [("a", .num 1)])).2).get (.str "k")
      = .ok (some (.obj [("a", .num 1)])) :=
  ⟨rfl, C3_set_get_roundtrip ⟨[], 100⟩ (.str "k") (.obj [("a", .num 1)]) rfl⟩

/-- C2 counterexample: with a per-slot limit of 3 bytes and the value
`{"a": 1}` (serialized length 7), `set` performs no chunk split at all: it
returns false and writes nothing, so the subsequent `get` returns absent
rather than a value deeply equal to the stored one. -/
theorem C2_counterexample :
    DynamicDB.set ⟨some ⟨[], 3⟩⟩ (.str "big") (.obj [("a", .num 1)])
      = (false, ⟨some ⟨[], 3⟩⟩) ∧
    ((DynamicDB.set ⟨some ⟨[], 3⟩⟩ (.str "big") (.obj [("a", .num 1)])).2).get (.str "big")
      = .ok none :=
  ⟨rfl, rfl⟩

/-- C2 (amended): the store performs no chunking.  For a structured value
whose serialized length exceeds the single-slot byte limit, `set` attempts
exactly one single-slot write, the backend rejects it, the `catch` turns
that into a `false` return, and the store is left completely unchanged (so
a later `get` sees the prior state).  `keys` returns the backend's slot
keys verbatim: each logical entry occupies exactly one physical slot under
its own key, so a logical key never appears once per chunk. -/
theorem C2_oversize_set_no_chunking (b : Backend) (s : String) (v : JValue)
    (hgt : b.maxSlot < jsonLength v) :
    DynamicDB.set ⟨some b⟩ (.str s) v = (false, ⟨some b⟩) ∧
    DynamicDB.keys ⟨some b⟩ = .ok (b.props.map (·.1)) :=
  ⟨set_overflow_char b s v (by omega), rfl⟩

/-- Witness for C2 (amended): the oversized write of `{"a": 1}` against a
3-byte slot limit fails and leaves the single existing slot list intact. -/
theorem C2_witness :
    DynamicDB.set ⟨some ⟨[("old", .json .null)], 3⟩⟩ (.str "big") (.obj [("a", .num 1)])
      = (false, ⟨some ⟨[("old", .json .null)], 3⟩⟩) ∧
    DynamicDB.keys ⟨some ⟨[("old", .json .null)], 3⟩⟩ = .ok ["old"] :=
  C2_oversize_set_no_chunking ⟨[("old", .json .null)], 3⟩ "big" (.obj [("a", .num 1)])
    (by decide)


/-! ## Shallow-merge lemmas for `push`/`dataMerge` -/

/-- First-match lookup of a field in an object's field list (JavaScript
property access on the built object). -/
def objLookup (fs : List (String × JValue)) (k : String) : Option JValue :=
  (fs.find? (fun p => p.1 == k)).map (·.2)

/-- Last-occurrence lookup in a raw spread-entry list: the value the object
literal ends up holding for `k`, since later assignments win. -/
def lastLookup (fs : List (String × JValue)) (k : String) : Option JValue :=
  (fs.reverse.find? (fun p => p.1 == k)).map (·.2)

theorem objLookup_cons_self (a : String) (w : JValue) (rest : List (String × JValue)) :
    objLookup ((a, w) :: rest) a = some w := by
  simp [objLookup, List.find?]

theorem objLookup_cons_ne (a : String) (w : JValue) (rest : List (String × JValue))
    (k' : String) (h : a ≠ k') : objLookup ((a, w) :: rest) k' = objLookup rest k' := by
  have hb : (a == k') = false := by simp [h]
  simp [objLookup, List.find?, hb]

theorem objLookup_objInsert (acc : List (String × JValue)) (k : String) (v : JValue)
    (k' : String) :
    objLookup (objInsert acc k v) k' = if k' = k then some v else objLookup acc k' := by
  induction acc with
  | nil =>
    by_cases h : k' = k
    · subst h
      simp [objInsert, objLookup_cons_self, objLookup]
    · rw [if_neg h]
      simp only [objInsert]
      rw [objLookup_cons_ne _ _ _ _ (Ne.symm h)]
  | cons p rest ih =>
    obtain ⟨a, w⟩ := p
    simp only [objInsert]
    by_cases hak : a = k
    · subst hak
      rw [if_pos (by simp)]
      by_cases h : k' = a
      · subst h
        rw [if_pos rfl, objLookup_cons_self]
      · rw [if_neg h, objLookup_cons_ne _ _ _ _ (Ne.symm h),
            objLookup_cons_ne _ _ _ _ (Ne.symm h)]
    · rw [if_neg (by simp [hak] : ¬((a, w).1 == k) = true)]
      by_cases h : a = k'
      · subst h
        rw [if_neg (fun hc => hak hc), objLookup_cons_self, objLookup_cons_self]
      · rw [objLookup_cons_ne _ _ _ _ h, objLookup_cons_ne _ _ _ _ h, ih]

theorem objLookup_foldl_objInsert (l : List (String × JValue))
    (acc : List (String × JValue)) (k : String) :
    objLookup (l.foldl (fun acc p => objInsert acc p.1 p.2) acc) k
      = (lastLookup l k).or (objLookup acc k) := by
  induction l generalizing acc with
  | nil => simp [lastLookup]
  | cons p rest ih =>
    rw [List.foldl_cons, ih]
    have hrev : lastLookup (p :: rest) k
        = (lastLookup rest k).or (if p.1 == k then some p.2 else none) := by
      simp only [lastLookup, List.reverse_cons, List.find?_append]
      cases hfind : rest.reverse.find? (fun q => q.1 == k)
      · cases hpk : (p.1 == k) <;> simp [List.find?, hpk, Option.or]
      · simp [Option.or]
    rw [hrev, objLookup_objInsert]
    cases hlast : lastLookup rest k
    · by_cases h : k = p.1
      · subst h
        simp [Option.or]
      · have hb : (p.1 == k) = false := by simp [Ne.symm h]
        simp [Option.or, hb, h]
    · simp [Option.or]

theorem dataMerge_some_obj (fs gs : List (String × JValue)) :
    DynamicDB.dataMerge (some (.obj fs)) (.obj gs)
      = .obj ((fs ++ gs).foldl (fun acc p => objInsert acc p.1 p.2) []) := rfl

theorem lastLookup_append (l₁ l₂ : List (String × JValue)) (k : String) :
    lastLookup (l₁ ++ l₂) k = (lastLookup l₂ k).or (lastLookup l₁ k) := by
  simp [lastLookup, List.reverse_append, List.find?_append]
  cases l₂.reverse.find? (fun q => q.1 == k) <;> simp [Option.or]

/-- C4: for a string key and object value, `push` reads the existing value
(treating it as an empty object when absent), shallow-merges the new
object's top-level fields over it with the new fields winning (nested
values taken wholesale, not recursively merged), and stores the merged
result via `set`; on the claim's own example, merging `{b:{y:2}, c:3}`
over `{a:1, b:{x:1}}` yields `{a:1, b:{y:2}, c:3}`. -/
theorem C4_push_shallow_merge (b : Backend) (s : String)
    (fs gs ms : List (String × JValue)) (ex : Option JValue) (k : String) :
    (DynamicDB.get ⟨some b⟩ (.str s) = .ok ex →
      DynamicDB.push ⟨some b⟩ (.str s) (.obj gs)
        = .ok (DynamicDB.set ⟨some b⟩ (.str s) (DynamicDB.dataMerge ex (.obj gs)))) ∧
    DynamicDB.dataMerge none (.obj gs) = DynamicDB.dataMerge (some (.obj [])) (.obj gs) ∧
    (DynamicDB.dataMerge (some (.obj fs)) (.obj gs) = .obj ms →
      objLookup ms k = (lastLookup gs k).or (lastLookup fs k)) ∧
    DynamicDB.dataMerge (some (.obj [("a", .num 1), ("b", .obj [("x", .num 1)])]))
        (.obj [("b", .obj [("y", .num 2)]), ("c", .num 3)])
      = .obj [("a", .num 1), ("b", .obj [("y", .num 2)]), ("c", .num 3)] := by
  refine ⟨fun h => ?_, rfl, fun h => ?_, rfl⟩
  · simp [DynamicDB.push, Validator.isString, Validator.isObject, h,
          Bind.bind, Except.bind, pure, Except.pure]
  · rw [dataMerge_some_obj] at h
    cases h
    rw [objLookup_foldl_objInsert, lastLookup_append]
    simp [objLookup]

/-- Witness for C4 on the claim's example store: pushing `{b:{y:2}, c:3}`
onto the key `"k"` holding `{a:1, b:{x:1}}` stores the shallow merge, and
the merged object's `"b"` field is the new nested object wholesale. -/
theorem C4_witness :
    DynamicDB.push ⟨some ⟨[("k", .json (.obj [("a", .num 1), ("b", .obj [("x", .num 1)])]))], 1000⟩⟩
        (.str "k") (.obj [("b", .obj [("y", .num 2)]), ("c", .num 3)])
      = .ok (DynamicDB.set
          ⟨some ⟨[("k", .json (.obj [("a", .num 1), ("b", .obj [("x", .num 1)])]))], 1000⟩⟩
          (.str "k")
          (DynamicDB.dataMerge (some (.obj [("a", .num 1), ("b", .obj [("x", .num 1)])]))
            (.obj [("b", .obj [("y", .num 2)]), ("c", .num 3)]))) ∧
    objLookup [("a", .num 1), ("b", .obj [("y", .num 2)]), ("c", .num 3)] "b"
      = (lastLookup [("b", .obj [("y", .num 2)]), ("c", .num 3)] "b").or
          (lastLookup [("a", .num 1), ("b", .obj [("x", .num 1)])] "b") :=
  ⟨(C4_push_shallow_merge ⟨[("k", .json (.obj [("a", .num 1), ("b", .obj [("x", .num 1)])]))], 1000⟩
      "k" [] [("b", .obj [("y", .num 2)]), ("c", .num 3)] [] (some (.obj [("a", .num 1), ("b", .obj [("x", .num 1)])])) "b").1 rfl,
   (C4_push_shallow_merge ⟨[], 1000⟩ "k"
      [("a", .num 1), ("b", .obj [("x", .num 1)])]
      [("b", .obj [("y", .num 2)]), ("c", .num 3)]
      [("a", .num 1), ("b", .obj [("y", .num 2)]), ("c", .num 3)]
      none "b").2.2.1 rfl⟩


/-! ## `entries` iteration lemmas -/

/-- The value a slot's text decodes to, defaulting for undecodable text;
only applied under a hypothesis that the text is the `json` form. -/
def slotValue : Option SlotText → JValue
  | some (.json v) => v
  | _ => .null

theorem get_str_json (b : Backend) (s : String) (v : JValue)
    (h : b.getDynamicProperty s = some (.json v)) :
    DynamicDB.get ⟨some b⟩ (.str s) = .ok (some v) := by
  rw [get_str_found b s _ h]
  rfl

theorem get_str_corrupt (b : Backend) (s c : String)
    (h : b.getDynamicProperty s = some (.corrupt c)) :
    DynamicDB.get ⟨some b⟩ (.str s) = .error "SyntaxError: unexpected token in JSON" := by
  rw [get_str_found b s _ h]
  rfl

theorem entriesGo_all_json (b : Backend) (ks : List String)
    (h : ∀ k ∈ ks, ∃ v, b.getDynamicProperty k = some (.json v)) :
    DynamicDB.entriesGo ⟨some b⟩ ks
      = .ok (ks.map (fun k => (k, slotValue (b.getDynamicProperty k)))) := by
  induction ks with
  | nil => rfl
  | cons k rest ih =>
    obtain ⟨v, hv⟩ := h k (List.mem_cons_self k rest)
    have hrest := ih (fun k' hk' => h k' (List.mem_cons_of_mem k hk'))
    simp only [DynamicDB.entriesGo, get_str_json b k v hv, hrest,
               Bind.bind, Except.bind, List.map_cons]
    simp [Validator.isUndefined, hv, slotValue, pure, Except.pure]

theorem entriesGo_ok_inv (db : DynamicDB) (ks : List String)
    (l : List (String × JValue)) (h : DynamicDB.entriesGo db ks = .ok l) :
    ∀ k ∈ ks, ∃ r, db.get (.str k) = .ok r := by
  induction ks generalizing l with
  | nil => intro k hk; cases hk
  | cons k rest ih =>
    intro k' hk'
    have hget : ∃ r tail, db.get (.str k) = .ok r ∧ DynamicDB.entriesGo db rest = .ok tail := by
      cases hg : db.get (.str k) with
      | error e =>
        rw [DynamicDB.entriesGo] at h
        simp [hg, Bind.bind, Except.bind] at h
      | ok r =>
        cases ht : DynamicDB.entriesGo db rest with
        | error e =>
          rw [DynamicDB.entriesGo] at h
          simp [hg, ht, Bind.bind, Except.bind] at h
        | ok tail => exact ⟨r, tail, rfl, rfl⟩
    obtain ⟨r, tail, hg, ht⟩ := hget
    rcases List.mem_cons.mp hk' with rfl | hmem
    · exact ⟨r, hg⟩
    · exact ih tail ht k' hmem

/-- C7 counterexample: with the first slot corrupt and the second slot a
perfectly decodable object, consuming `entries()` raises the `JSON.parse`
exception; the corrupt key is not skipped and the decodable key `"b"` is
never yielded — the whole iteration aborts. -/
theorem C7_counterexample :
    DynamicDB.entries ⟨some ⟨[("a", .corrupt "x"), ("b", .json (.obj []))], 100⟩⟩
      = .error "SyntaxError: unexpected token in JSON" := rfl

/-- C7 (amended): `entries()` is a finite sequence computed afresh from the
store state at consumption time; when every stored slot decodes it yields
each enumerated key with its decoded value, in enumeration order; but when
any key's stored text fails to deserialize, the `JSON.parse` exception
propagates out of the generator and the whole iteration aborts — the bad
key is not skipped and the remaining keys are not visited. -/
theorem C7_entries_all_or_abort (b : Backend) :
    ((∀ k ∈ b.getDynamicPropertyIds, ∃ v, b.getDynamicProperty k = some (.json v)) →
      DynamicDB.entries ⟨some b⟩
        = .ok (b.getDynamicPropertyIds.map (fun k => (k, slotValue (b.getDynamicProperty k))))) ∧
    ((∃ k ∈ b.getDynamicPropertyIds, ∃ c, b.getDynamicProperty k = some (.corrupt c)) →
      ∃ e, DynamicDB.entries ⟨some b⟩ = .error e) := by
  have hkeys : DynamicDB.entries ⟨some b⟩
      = DynamicDB.entriesGo ⟨some b⟩ b.getDynamicPropertyIds := by
    simp [DynamicDB.entries, DynamicDB.keys, DynamicDB.deref,
          Bind.bind, Except.bind, pure, Except.pure]
  constructor
  · intro h
    rw [hkeys]
    exact entriesGo_all_json b _ h
  · intro h
    obtain ⟨k, hk, c, hc⟩ := h
    cases he : DynamicDB.entries ⟨some b⟩ with
    | error e => exact ⟨e, rfl⟩
    | ok l =>
      rw [hkeys] at he
      obtain ⟨r, hr⟩ := entriesGo_ok_inv _ _ _ he k hk
      rw [get_str_corrupt b k c hc] at hr
      cases hr

/-- Witness for C7 (amended): a store of two decodable slots yields both
pairs in order; a store whose slot is corrupt makes `entries` raise. -/
theorem C7_witness :
    DynamicDB.entries ⟨some ⟨[("a", .json .null), ("b", .json (.obj []))], 100⟩⟩
      = .ok [("a", .null), ("b", .obj [])] ∧
    ∃ e, DynamicDB.entries ⟨some ⟨[("z", .corrupt "?")], 100⟩⟩ = .error e :=
  ⟨(C7_entries_all_or_abort ⟨[("a", .json .null), ("b", .json (.obj []))], 100⟩).1
      (by intro k hk; fin_cases hk <;> exact ⟨_, rfl⟩),
   (C7_entries_all_or_abort ⟨[("z", .corrupt "?")], 100⟩).2
      ⟨"z", by decide, "?", rfl⟩⟩

/-! ## Snapshot lemmas for `values`, `find`, `forEach` -/

theorem forEachGo_visited (f : JValue → String → DynamicDB → DynamicDB)
    (arr : List (String × JValue)) (db : DynamicDB) :
    (DynamicDB.forEachGo f arr db).2 = arr := by
  induction arr generalizing db with
  | nil => rfl
  | cons p rest ih =>
    obtain ⟨k, v⟩ := p
    simp [DynamicDB.forEachGo, ih]

theorem findGo_visited (f : JValue → String → DynamicDB → Bool × DynamicDB)
    (arr : List (String × JValue)) (db : DynamicDB) :
    ∃ suf, (DynamicDB.findGo f arr db).2 ++ suf = arr := by
  induction arr generalizing db with
  | nil => exact ⟨[], rfl⟩
  | cons p rest ih =>
    obtain ⟨k, v⟩ := p
    simp only [DynamicDB.findGo]
    cases hf : f v k db with
    | mk hit db' =>
      cases hit
      · obtain ⟨suf, hsuf⟩ := ih db'
        exact ⟨suf, by simp [hsuf]⟩
      · exact ⟨rest, rfl⟩

/-- C9: `values`, `find` and `forEach` all materialize `[...this.entries()]`
into an array before running any caller-supplied callback, so the entries
visited in one call are drawn from that call-time snapshot in order — no
matter how the callbacks mutate the store: `forEach` passes exactly the
snapshot's pairs to its callback, `find` passes an initial segment of them
(stopping at the first hit), and `values` returns exactly the snapshot's
values. -/
theorem C9_callbacks_see_snapshot (b : Backend) (l : List (String × JValue))
    (f : JValue → String → DynamicDB → Bool × DynamicDB)
    (g : JValue → String → DynamicDB → DynamicDB)
    (h : DynamicDB.entries ⟨some b⟩ = .ok l) :
    DynamicDB.values ⟨some b⟩ = .ok (l.map (·.2)) ∧
    (∃ res, DynamicDB.find ⟨some b⟩ f = .ok res ∧ ∃ suf, res.2 ++ suf = l) ∧
    (∃ res, DynamicDB.forEach ⟨some b⟩ g = .ok res ∧ res.2 = l) := by
  refine ⟨?_, ?_, ?_⟩
  · simp [DynamicDB.values, h, Bind.bind, Except.bind, pure, Except.pure]
  · refine ⟨DynamicDB.findGo f l ⟨some b⟩, ?_, findGo_visited f l ⟨some b⟩⟩
    simp [DynamicDB.find, h, Bind.bind, Except.bind, pure, Except.pure]
  · refine ⟨DynamicDB.forEachGo g l ⟨some b⟩, ?_, forEachGo_visited g l ⟨some b⟩⟩
    simp [DynamicDB.forEach, h, Bind.bind, Except.bind, pure, Except.pure]

/-- Witness for C9 with a concrete two-slot store and concrete callbacks
(the `find` predicate mutates the store by deleting behind itself and never
matches; the `forEach` callback resets the store): the visited pairs still
come from the call-time snapshot. -/
theorem C9_witness :
    DynamicDB.values ⟨some ⟨[("a", .json .null), ("b", .json (.bool true))], 40⟩⟩
      = .ok [.null, .bool true] ∧
    (∃ res, DynamicDB.find ⟨some ⟨[("a", .json .null), ("b", .json (.bool true))], 40⟩⟩
        (fun _ _ _ => (false, ⟨some ⟨[], 40⟩⟩)) = .ok res ∧
      ∃ suf, res.2 ++ suf = [("a", JValue.null), ("b", JValue.bool true)]) ∧
    (∃ res, DynamicDB.forEach ⟨some ⟨[("a", .json .null), ("b", .json (.bool true))], 40⟩⟩
        (fun _ _ _ => ⟨some ⟨[], 40⟩⟩) = .ok res ∧
      res.2 = [("a", JValue.null), ("b", JValue.bool true)]) :=
  C9_callbacks_see_snapshot ⟨[("a", .json .null), ("b", .json (.bool true))], 40⟩
    [("a", .null), ("b", .bool true)]
    (fun _ _ _ => (false, ⟨some ⟨[], 40⟩⟩)) (fun _ _ _ => ⟨some ⟨[], 40⟩⟩) rfl

/-! ## Behavior of an instance whose constructor argument was rejected -/

/-- C10 counterexample: on an instance built from an invalid constructor
argument, `set` with a string key and object value does NOT throw — its
`try`/`catch` swallows the `TypeError` from dereferencing the unset backend
and it returns the `false` sentinel, leaving the instance as it was. -/
theorem C10_counterexample :
    (DynamicDB.make .invalid).set (.str "k") (.obj []) = (false, DynamicDB.make .invalid) := rfl

/-- C10 (amended): an invalid constructor argument does not make the
constructor throw: it logs, returns, and leaves the backend reference
unassigned.  Every subsequent operation that dereferences the unset backend
outside a `try` — `get`, `push`, `delete`, `reset`, `hasKey`, `keys`,
`bytes`, `entries` (with validly-shaped arguments) — throws a `TypeError`
rather than returning a sentinel; `set` alone catches that `TypeError` in
its serialization `try`/`catch` and returns the `false` sentinel. -/
theorem C10_unset_backend_behavior (s : String) (fs : List (String × JValue)) :
    DynamicDB.make .invalid = ⟨none⟩ ∧
    (DynamicDB.make .invalid).get (.str s)
      = .error "TypeError: cannot read properties of undefined" ∧
    (DynamicDB.make .invalid).set (.str s) (.obj fs) = (false, DynamicDB.make .invalid) ∧
    (DynamicDB.make .invalid).push (.str s) (.obj fs)
      = .error "TypeError: cannot read properties of undefined" ∧
    (DynamicDB.make .invalid).delete (.str s)
      = .error "TypeError: cannot read properties of undefined" ∧
    (DynamicDB.make .invalid).reset
      = .error "TypeError: cannot read properties of undefined" ∧
    (DynamicDB.make .invalid).hasKey s
      = .error "TypeError: cannot read properties of undefined" ∧
    (DynamicDB.make .invalid).keys
      = .error "TypeError: cannot read properties of undefined" ∧
    (DynamicDB.make .invalid).bytes
      = .error "TypeError: cannot read properties of undefined" ∧
    (DynamicDB.make .invalid).entries
      = .error "TypeError: cannot read properties of undefined" :=
  ⟨rfl, rfl, rfl, rfl, rfl, rfl, rfl, rfl, rfl, rfl⟩


end BlockCore
